import Mathlib

/-!
Shallow embedding of the portmaster eBPF flow-observation programs:

* src/service/firewall/interception/ebpf/programs/bandwidth.c
  (namespace bandwidth): the per-flow byte-accounting hooks and the
  LRU-bounded flow table pm_bandwidth_map.
* src/firewall/interception/ebpf/programs/monitor.c
  (namespace monitor): the connection-event hooks emitting records with a
  direction field.
* src/firewall/interception/ebpf/program/monitor.c
  (namespace monitor_old): the earlier schema variant whose event record
  has no direction field.

Machine integers are modelled as Nat with explicit reduction modulo 2 ^ 64
where u64 overflow matters; u32 lanes, u16 ports and u8 tags are carried as
plain Nat values that the programs only copy or byte-swap.
-/

namespace Portmaster

/-- Address family constant AF_INET from the C sources. -/
def AF_INET : Nat := 2

/-- Address family constant AF_INET6 from the C sources. -/
def AF_INET6 : Nat := 10

/-- Protocol number for TCP, PROTOCOL_TCP in bandwidth.c and TCP in monitor.c. -/
def PROTOCOL_TCP : Nat := 6

/-- Protocol number for UDP, PROTOCOL_UDP in bandwidth.c and UDP in monitor.c. -/
def PROTOCOL_UDP : Nat := 17

/-- Protocol number for UDP-Lite, UDPLite in monitor.c. -/
def UDPLite : Nat := 136

/-- Kernel protocol identifier IPPROTO_UDPLITE used by the sk_protocol test. -/
def IPPROTO_UDPLITE : Nat := 136

/-- Direction constant OUTBOUND from programs/monitor.c. -/
def OUTBOUND : Nat := 0

/-- Direction constant INBOUND from programs/monitor.c. -/
def INBOUND : Nat := 1

/-- Capacity of the bandwidth LRU map, SOCKOPS_MAP_SIZE in bandwidth.c. -/
def SOCKOPS_MAP_SIZE : Nat := 5000

/-- Modulus of the 64-bit unsigned counters stored in struct sk_info. -/
def U64 : Nat := 2 ^ 64

/-- Sockops callback opcode BPF_SOCK_OPS_TCP_CONNECT_CB from the kernel bpf uapi enum. -/
def BPF_SOCK_OPS_TCP_CONNECT_CB : Nat := 3

/-- Sockops callback opcode BPF_SOCK_OPS_PASSIVE_ESTABLISHED_CB from the kernel bpf uapi enum. -/
def BPF_SOCK_OPS_PASSIVE_ESTABLISHED_CB : Nat := 5

/-- Sockops callback opcode BPF_SOCK_OPS_TCP_LISTEN_CB from the kernel bpf uapi enum. -/
def BPF_SOCK_OPS_TCP_LISTEN_CB : Nat := 11

/-- Byte swap of a 16-bit value, mirroring the C builtin bswap16. -/
def bswap16 (n : Nat) : Nat := (n % 256) * 256 + (n / 256) % 256

/-- Byte swap of a 32-bit value, mirroring the C builtin bswap32. -/
def bswap32 (n : Nat) : Nat :=
  (n % 256) * 2 ^ 24 + ((n / 2 ^ 8) % 256) * 2 ^ 16 +
    ((n / 2 ^ 16) % 256) * 2 ^ 8 + (n / 2 ^ 24) % 256

/-- Numeric value of a dotted-quad IPv4 address read in network byte order. -/
def addr_v4 (a b c d : Nat) : Nat := ((a * 256 + b) * 256 + c) * 256 + d

/-- Four 32-bit lanes, as in the kernel struct in6_addr and the u32 arrays of the
event and key records. -/
structure in6_addr where
  a0 : Nat
  a1 : Nat
  a2 : Nat
  a3 : Nat
deriving DecidableEq, Repr

/-- Lanes of a four-lane value as a list, matching a C u32 array of length 4. -/
def in6_addr.lanes (a : in6_addr) : List Nat := [a.a0, a.a1, a.a2, a.a3]

/-- Lane-wise 32-bit byte swap used by the IPv6 branches of monitor.c. -/
def bswap32x4 (a : in6_addr) : in6_addr :=
  { a0 := bswap32 a.a0, a1 := bswap32 a.a1, a2 := bswap32 a.a2, a3 := bswap32 a.a3 }

/-- Flow key of the bandwidth map, struct sk_key in bandwidth.c. -/
structure sk_key where
  src_ip : List Nat
  dst_ip : List Nat
  src_port : Nat
  dst_port : Nat
  protocol : Nat
  ipv6 : Nat
deriving DecidableEq, Repr

/-- Per-flow counters of the bandwidth map, struct sk_info in bandwidth.c. The
reported field follows the code convention: 0 means the entry carries data the
consumer has not read yet (the changed state of the spec flag); the consumer
stores a nonzero value there when it reads the entry. -/
structure sk_info where
  rx : Nat
  tx : Nat
  reported : Nat
deriving DecidableEq, Repr

/-- Socket descriptor fields read by the fentry hooks of bandwidth.c and the
hooks of both monitor.c variants: the sock_common fields, the sk_protocol
field, the udp_sock pcflag field, and flags recording whether the
bpf_skc_to_* casts performed by some hooks succeed (a NULL result aborts the
hook). -/
structure sock where
  skc_family : Nat
  skc_rcv_saddr : Nat
  skc_daddr : Nat
  skc_v6_rcv_saddr : in6_addr
  skc_v6_daddr : in6_addr
  skc_num : Nat
  skc_dport : Nat
  sk_protocol : Nat
  pcflag : Nat
  udp6_cast_ok : Bool
  tcp_cast_ok : Bool
  tcp6_cast_ok : Bool
deriving DecidableEq, Repr

/-- Fields of struct bpf_sock read by the sockops program of bandwidth.c. Per
the bpf ABI, src_port carries the port number in host byte order while
dst_port and the address fields are in network byte order. -/
structure bpf_sock where
  family : Nat
  src_ip4 : Nat
  dst_ip4 : Nat
  src_ip6 : in6_addr
  dst_ip6 : in6_addr
  src_port : Nat
  dst_port : Nat
deriving DecidableEq, Repr

namespace bandwidth

/-- Key built by the udp_sendmsg hook of bandwidth.c: sk_key is zero
initialised, lane 0 of each address is filled from sock_common, src_port is
skc_num, dst_port is byte-swapped skc_dport, protocol is PROTOCOL_UDP. -/
def udp_sendmsg_key (sk : sock) : sk_key :=
  { src_ip := [sk.skc_rcv_saddr, 0, 0, 0]
    dst_ip := [sk.skc_daddr, 0, 0, 0]
    src_port := sk.skc_num
    dst_port := bswap16 sk.skc_dport
    protocol := PROTOCOL_UDP
    ipv6 := 0 }

/-- Key built by the udp_recvmsg hook of bandwidth.c; the construction is
textually identical to the one in udp_sendmsg. -/
def udp_recvmsg_key (sk : sock) : sk_key :=
  { src_ip := [sk.skc_rcv_saddr, 0, 0, 0]
    dst_ip := [sk.skc_daddr, 0, 0, 0]
    src_port := sk.skc_num
    dst_port := bswap16 sk.skc_dport
    protocol := PROTOCOL_UDP
    ipv6 := 0 }

/-- Key built by the udpv6_sendmsg hook of bandwidth.c. The loop in the C
source copies skc_v6_rcv_saddr into BOTH the src_ip and dst_ip lanes. -/
def udpv6_sendmsg_key (sk : sock) : sk_key :=
  { src_ip := sk.skc_v6_rcv_saddr.lanes
    dst_ip := sk.skc_v6_rcv_saddr.lanes
    src_port := sk.skc_num
    dst_port := bswap16 sk.skc_dport
    protocol := PROTOCOL_UDP
    ipv6 := 1 }

/-- Key built by the udpv6_recvmsg hook of bandwidth.c; as in udpv6_sendmsg,
skc_v6_rcv_saddr is copied into both address lane arrays. -/
def udpv6_recvmsg_key (sk : sock) : sk_key :=
  { src_ip := sk.skc_v6_rcv_saddr.lanes
    dst_ip := sk.skc_v6_rcv_saddr.lanes
    src_port := sk.skc_num
    dst_port := bswap16 sk.skc_dport
    protocol := PROTOCOL_UDP
    ipv6 := 1 }

/-- Key built by the IPv4 branch of the sockops program of bandwidth.c. -/
def sockops_key_v4 (sk : bpf_sock) : sk_key :=
  { src_ip := [sk.src_ip4, 0, 0, 0]
    dst_ip := [sk.dst_ip4, 0, 0, 0]
    src_port := sk.src_port
    dst_port := bswap16 sk.dst_port
    protocol := PROTOCOL_TCP
    ipv6 := 0 }

/-- Key built by the IPv6 branch of the sockops program of bandwidth.c. -/
def sockops_key_v6 (sk : bpf_sock) : sk_key :=
  { src_ip := sk.src_ip6.lanes
    dst_ip := sk.dst_ip6.lanes
    src_port := sk.src_port
    dst_port := bswap16 sk.dst_port
    protocol := PROTOCOL_TCP
    ipv6 := 1 }

/-- State of pm_bandwidth_map, ordered by recency of access with the most
recently accessed entry first. -/
abbrev BwTable := List (sk_key × sk_info)

/-- Lookup of a key in the table, as bpf_map_lookup_elem on pm_bandwidth_map. -/
def bwLookup (k : sk_key) : BwTable → Option sk_info
  | [] => none
  | p :: rest => if p.1 = k then some p.2 else bwLookup k rest

/-- Removal of every entry carrying a given key. -/
def bwRemove (k : sk_key) : BwTable → BwTable
  | [] => []
  | p :: rest => if p.1 = k then bwRemove k rest else p :: bwRemove k rest

/-- Modelled from the spec: the store operation of the kernel LRU hash map
backing pm_bandwidth_map (BPF_MAP_TYPE_LRU_HASH with BPF_ANY), whose
implementation is not part of this repository. Per the spec, the map holds at
most its configured capacity of entries and an insert into a full map evicts
the least-recently-accessed entry; an update of a present key replaces its
value and refreshes its recency. Recency is modelled exactly, with the list
ordered most-recent-first, so the evicted entry is the last one. -/
def bwUpdate (cap : Nat) (k : sk_key) (v : sk_info) (t : BwTable) : BwTable :=
  if (bwLookup k t).isSome then
    (k, v) :: bwRemove k t
  else if t.length < cap then
    (k, v) :: t
  else
    (k, v) :: t.dropLast

/-- Direction of a datagram transfer: receive or transmit. -/
inductive Dir where
  | rx : Dir
  | tx : Dir
deriving DecidableEq, Repr

/-- Mutation applied by a UDP hook of bandwidth.c to an existing entry: a
fetch-and-add of the byte count onto the rx or tx counter (64-bit, wrapping)
followed by a fetch-and-and of the reported field with 0. -/
def bumpInfo (d : Dir) (len : Nat) (info : sk_info) : sk_info :=
  match d with
  | Dir.rx => { info with rx := (info.rx + len) % U64, reported := info.reported &&& 0 }
  | Dir.tx => { info with tx := (info.tx + len) % U64, reported := info.reported &&& 0 }

/-- Entry inserted by a UDP hook of bandwidth.c for an absent key: a zero
initialised sk_info whose rx or tx counter holds the byte count. -/
def freshInfo (d : Dir) (len : Nat) : sk_info :=
  match d with
  | Dir.rx => { rx := len % U64, tx := 0, reported := 0 }
  | Dir.tx => { rx := 0, tx := len % U64, reported := 0 }

/-- Shared body of the four UDP hooks of bandwidth.c: look the key up; if an
entry exists, apply bumpInfo to it in place; otherwise insert freshInfo via
the map store operation. The looked-up entry is refreshed in recency, as
kernel LRU lookup marks it accessed. -/
def accumulate (cap : Nat) (k : sk_key) (d : Dir) (len : Nat) (t : BwTable) : BwTable :=
  match bwLookup k t with
  | some info => (k, bumpInfo d len info) :: bwRemove k t
  | none => bwUpdate cap k (freshInfo d len) t

/-- The socket_operations sockops program of bandwidth.c. The switch returns
early for the TCP_CONNECT, TCP_LISTEN and PASSIVE_ESTABLISHED callbacks (they
only set callback flags); every other opcode falls through to the map update,
which overwrites the entry for the socket's key with the socket's current
cumulative bytes_received and bytes_acked totals. A NULL skops socket aborts
the program. -/
def socket_operations (cap : Nat) (op : Nat) (sk : Option bpf_sock)
    (bytes_received bytes_acked : Nat) (t : BwTable) : BwTable :=
  if op = BPF_SOCK_OPS_TCP_CONNECT_CB ∨ op = BPF_SOCK_OPS_TCP_LISTEN_CB ∨
      op = BPF_SOCK_OPS_PASSIVE_ESTABLISHED_CB then t
  else
    match sk with
    | none => t
    | some sk =>
      if sk.family = AF_INET then
        bwUpdate cap (sockops_key_v4 sk)
          { rx := bytes_received % U64, tx := bytes_acked % U64, reported := 0 } t
      else if sk.family = AF_INET6 then
        bwUpdate cap (sockops_key_v6 sk)
          { rx := bytes_received % U64, tx := bytes_acked % U64, reported := 0 } t
      else t

/-- One invocation of a bandwidth.c program that touches pm_bandwidth_map. -/
inductive TableOp where
  | udpSend (sk : sock) (len : Nat) : TableOp
  | udpRecv (sk : sock) (len : Nat) : TableOp
  | udp6Send (sk : sock) (len : Nat) : TableOp
  | udp6Recv (sk : sock) (len : Nat) : TableOp
  | tcpSockops (op : Nat) (sk : Option bpf_sock) (bytes_received bytes_acked : Nat) : TableOp

/-- Effect of one hook invocation on the table. -/
def applyOp (cap : Nat) (t : BwTable) : TableOp → BwTable
  | TableOp.udpSend sk len => accumulate cap (udp_sendmsg_key sk) Dir.tx len t
  | TableOp.udpRecv sk len => accumulate cap (udp_recvmsg_key sk) Dir.rx len t
  | TableOp.udp6Send sk len => accumulate cap (udpv6_sendmsg_key sk) Dir.tx len t
  | TableOp.udp6Recv sk len => accumulate cap (udpv6_recvmsg_key sk) Dir.rx len t
  | TableOp.tcpSockops op sk r a => socket_operations cap op sk r a t

/-- Effect of a sequence of hook invocations, applied in order. -/
def runOps (cap : Nat) (ops : List TableOp) (t : BwTable) : BwTable :=
  ops.foldl (applyOp cap) t

/-- Effect of a sequence of accumulate calls that all target one key; the list
gives the interleaving order of the calls. -/
def runAccum (cap : Nat) (k : sk_key) (calls : List (Dir × Nat)) (t : BwTable) : BwTable :=
  calls.foldl (fun t c => accumulate cap k c.1 c.2 t) t

/-- Sum of the byte counts of the receive-direction calls in a call list. -/
def sumRx : List (Dir × Nat) → Nat
  | [] => 0
  | (Dir.rx, len) :: rest => len + sumRx rest
  | (Dir.tx, _) :: rest => sumRx rest

/-- Sum of the byte counts of the transmit-direction calls in a call list. -/
def sumTx : List (Dir × Nat) → Nat
  | [] => 0
  | (Dir.tx, len) :: rest => len + sumTx rest
  | (Dir.rx, _) :: rest => sumTx rest

end bandwidth

/-- Connection-event record of programs/monitor.c, struct Event with a
direction field. -/
structure Event where
  saddr : in6_addr
  daddr : in6_addr
  sport : Nat
  dport : Nat
  pid : Nat
  ipVersion : Nat
  protocol : Nat
  direction : Nat
deriving DecidableEq, Repr

/-- Connection-event record of the earlier schema in program/monitor.c, which
has no direction field. -/
structure EventOld where
  saddr : in6_addr
  daddr : in6_addr
  sport : Nat
  dport : Nat
  pid : Nat
  ipVersion : Nat
  protocol : Nat
deriving DecidableEq, Repr

/-- Modelled from the spec: commit of a submitted record to the bounded event
channel (the kernel ring buffer pm_connection_events, whose implementation is
not part of this repository). A successfully reserved and submitted record is
appended whole; a failed reservation leaves the channel unchanged, so no
partial record ever becomes visible. -/
def commitEvent (ch : List Event) : Option Event → List Event
  | none => ch
  | some e => ch ++ [e]

/-- Modelled from the spec: commit to the channel of the earlier schema. -/
def commitEventOld (ch : List EventOld) : Option EventOld → List EventOld
  | none => ch
  | some e => ch ++ [e]

namespace monitor

/-- The tcp_connect fentry program of programs/monitor.c. The reserved
argument models the bpf_ringbuf_reserve result: none is a NULL reservation
(buffer full), which makes the hook return 0 without emitting anything; some r
carries the residual bytes already present in the reserved slot, which any
field the program does not assign keeps. The program sets pid, protocol TCP,
direction OUTBOUND, the ports, and, for the AF_INET and AF_INET6 families,
the address lanes and ipVersion; the result pairs the program's return value
with the submitted record. -/
def tcp_connect (sk : sock) (pid_tgid : Nat) (reserved : Option Event) : Int × Option Event :=
  match reserved with
  | none => (0, none)
  | some r =>
    let e0 : Event :=
      { r with
        pid := bswap32 ((pid_tgid / 2 ^ 32) % 2 ^ 32)
        protocol := PROTOCOL_TCP
        direction := OUTBOUND
        sport := bswap16 sk.skc_num
        dport := sk.skc_dport }
    let e : Event :=
      if sk.skc_family = AF_INET then
        { e0 with
          saddr := { e0.saddr with a0 := bswap32 sk.skc_rcv_saddr }
          daddr := { e0.daddr with a0 := bswap32 sk.skc_daddr }
          ipVersion := 4 }
      else if sk.skc_family = AF_INET6 then
        { e0 with
          saddr := bswap32x4 sk.skc_v6_rcv_saddr
          daddr := bswap32x4 sk.skc_v6_daddr
          ipVersion := 6 }
      else e0
    (0, some e)

/-- The udp_v4_connect fexit program of programs/monitor.c (attached to
ip4_datagram_connect). Non-AF_INET sockets, sockets with dport 0 and a failed
reservation all return 0 with no event. The protocol is UDPLite exactly when
sk_protocol is IPPROTO_UDPLITE, else UDP. The program never assigns the
direction field, which therefore keeps the reserved slot's residual value;
address lanes 1 to 3 likewise stay residual. -/
def udp_v4_connect (sk : sock) (pid_tgid : Nat) (reserved : Option Event) : Int × Option Event :=
  if sk.skc_family ≠ AF_INET then (0, none)
  else if sk.skc_dport = 0 then (0, none)
  else
    match reserved with
    | none => (0, none)
    | some r =>
      (0, some
        { r with
          pid := bswap32 ((pid_tgid / 2 ^ 32) % 2 ^ 32)
          sport := bswap16 sk.skc_num
          dport := sk.skc_dport
          saddr := { r.saddr with a0 := bswap32 sk.skc_rcv_saddr }
          daddr := { r.daddr with a0 := bswap32 sk.skc_daddr }
          ipVersion := 4
          protocol := if sk.sk_protocol = IPPROTO_UDPLITE then UDPLite else PROTOCOL_UDP })

/-- The udp_v6_connect fexit program of programs/monitor.c (attached to
ip6_datagram_connect). Non-AF_INET6 sockets, dport 0, a NULL
bpf_skc_to_udp6_sock cast and a failed reservation all return 0 with no
event. The protocol is UDPLite exactly when sk_protocol is IPPROTO_UDPLITE.
As in udp_v4_connect, the direction field is never assigned and keeps the
reserved slot's residual value. -/
def udp_v6_connect (sk : sock) (pid_tgid : Nat) (reserved : Option Event) : Int × Option Event :=
  if sk.skc_family ≠ AF_INET6 then (0, none)
  else if sk.skc_dport = 0 then (0, none)
  else if sk.udp6_cast_ok = false then (0, none)
  else
    match reserved with
    | none => (0, none)
    | some r =>
      (0, some
        { r with
          pid := bswap32 ((pid_tgid / 2 ^ 32) % 2 ^ 32)
          sport := bswap16 sk.skc_num
          dport := sk.skc_dport
          saddr := bswap32x4 sk.skc_v6_rcv_saddr
          daddr := bswap32x4 sk.skc_v6_daddr
          ipVersion := 6
          protocol := if sk.sk_protocol = IPPROTO_UDPLITE then UDPLite else PROTOCOL_UDP })

end monitor

namespace monitor_old

/-- The tcp_v4_connect fexit program of program/monitor.c. Non-AF_INET
sockets, a NULL bpf_skc_to_tcp_sock cast and a failed reservation all return
0 with no event. This schema variant reads the low 32 bits of pid_tgid and
stores sport without a byte swap. -/
def tcp_v4_connect (sk : sock) (pid_tgid : Nat) (reserved : Option EventOld) :
    Int × Option EventOld :=
  if sk.skc_family ≠ AF_INET then (0, none)
  else if sk.tcp_cast_ok = false then (0, none)
  else
    match reserved with
    | none => (0, none)
    | some r =>
      (0, some
        { r with
          pid := bswap32 (pid_tgid % 2 ^ 32)
          dport := sk.skc_dport
          sport := sk.skc_num
          saddr := { r.saddr with a0 := bswap32 sk.skc_rcv_saddr }
          daddr := { r.daddr with a0 := bswap32 sk.skc_daddr }
          ipVersion := 4
          protocol := PROTOCOL_TCP })

/-- The udp_sendmsg fentry program of program/monitor.c. For the AF_INET
family no UDP-Lite indicator is read; the protocol is always UDP, as the
source comments: no way to detect udplite for ipv4. -/
def udp_sendmsg (sk : sock) (pid_tgid : Nat) (reserved : Option EventOld) :
    Int × Option EventOld :=
  if sk.skc_family ≠ AF_INET then (0, none)
  else
    match reserved with
    | none => (0, none)
    | some r =>
      (0, some
        { r with
          pid := bswap32 (pid_tgid % 2 ^ 32)
          dport := sk.skc_dport
          sport := sk.skc_num
          saddr := { r.saddr with a0 := bswap32 sk.skc_rcv_saddr }
          daddr := { r.daddr with a0 := bswap32 sk.skc_daddr }
          ipVersion := 4
          protocol := PROTOCOL_UDP })

/-- The udpv6_sendmsg fentry program of program/monitor.c. Non-AF_INET6
sockets, a NULL bpf_skc_to_udp6_sock cast and a failed reservation all return
0 with no event. The protocol is UDP when the udp_sock pcflag field is 0 and
UDPLite otherwise. -/
def udpv6_sendmsg (sk : sock) (pid_tgid : Nat) (reserved : Option EventOld) :
    Int × Option EventOld :=
  if sk.skc_family ≠ AF_INET6 then (0, none)
  else if sk.udp6_cast_ok = false then (0, none)
  else
    match reserved with
    | none => (0, none)
    | some r =>
      (0, some
        { r with
          pid := bswap32 (pid_tgid % 2 ^ 32)
          dport := sk.skc_dport
          sport := sk.skc_num
          saddr := bswap32x4 sk.skc_v6_rcv_saddr
          daddr := bswap32x4 sk.skc_v6_daddr
          ipVersion := 6
          protocol := if sk.pcflag = 0 then PROTOCOL_UDP else UDPLite })

end monitor_old

/-! Concrete sample inputs used to evaluate the embedded programs. -/

/-- Sample IPv4 UDP socket: a flow from 10.0.0.5 port 51000 to 93.184.216.34
port 443. Per the kernel ABI, skc_num is in host byte order and skc_dport in
network byte order. -/
def demoSockV4 : sock :=
  { skc_family := AF_INET
    skc_rcv_saddr := addr_v4 10 0 0 5
    skc_daddr := addr_v4 93 184 216 34
    skc_v6_rcv_saddr := { a0 := 0, a1 := 0, a2 := 0, a3 := 0 }
    skc_v6_daddr := { a0 := 0, a1 := 0, a2 := 0, a3 := 0 }
    skc_num := 51000
    skc_dport := bswap16 443
    sk_protocol := 17
    pcflag := 0
    udp6_cast_ok := true
    tcp_cast_ok := true
    tcp6_cast_ok := true }

/-- Flow key the UDP send hook builds for the sample IPv4 socket. -/
def demoKey : sk_key := bandwidth.udp_sendmsg_key demoSockV4

/-- Sample IPv6 UDP-Lite socket whose destination address differs from its
source address and whose pcflag marks it as UDP-Lite. -/
def demoSockV6 : sock :=
  { skc_family := AF_INET6
    skc_rcv_saddr := 0
    skc_daddr := 0
    skc_v6_rcv_saddr := { a0 := 1, a1 := 2, a2 := 3, a3 := 4 }
    skc_v6_daddr := { a0 := 5, a1 := 6, a2 := 7, a3 := 8 }
    skc_num := 4000
    skc_dport := bswap16 53
    sk_protocol := 136
    pcflag := 1
    udp6_cast_ok := true
    tcp_cast_ok := true
    tcp6_cast_ok := true }

/-- Sample IPv4 socket whose sk_protocol marks it as UDP-Lite. -/
def liteSock : sock :=
  { demoSockV4 with sk_protocol := IPPROTO_UDPLITE }

/-- Sample IPv4 TCP sockops descriptor for the flow 192.0.2.10 port 51413 to
203.0.113.5 port 443. Per the bpf ABI, src_port is the port number in host
byte order and dst_port is in network byte order. -/
def tcpDemoBpf : bpf_sock :=
  { family := AF_INET
    src_ip4 := addr_v4 192 0 2 10
    dst_ip4 := addr_v4 203 0 113 5
    src_ip6 := { a0 := 0, a1 := 0, a2 := 0, a3 := 0 }
    dst_ip6 := { a0 := 0, a1 := 0, a2 := 0, a3 := 0 }
    src_port := 51413
    dst_port := bswap16 443 }

/-- Blank residual contents of a freshly zeroed reserved event slot. -/
def blankEvent : Event :=
  { saddr := { a0 := 0, a1 := 0, a2 := 0, a3 := 0 }
    daddr := { a0 := 0, a1 := 0, a2 := 0, a3 := 0 }
    sport := 0, dport := 0, pid := 0, ipVersion := 0, protocol := 0, direction := 0 }

/-- Residual slot contents whose direction byte happens to hold 1, as left by
earlier ring-buffer traffic. -/
def residualInbound : Event := { blankEvent with direction := INBOUND }

/-- Blank residual contents of a reserved slot of the earlier event schema. -/
def blankOld : EventOld :=
  { saddr := { a0 := 0, a1 := 0, a2 := 0, a3 := 0 }
    daddr := { a0 := 0, a1 := 0, a2 := 0, a3 := 0 }
    sport := 0, dport := 0, pid := 0, ipVersion := 0, protocol := 0 }

/-- Event the udp_v4_connect program emits for the sample UDP-Lite socket. -/
def liteEventV4 : Event :=
  ((monitor.udp_v4_connect liteSock 7 (some blankEvent)).2).getD blankEvent

/-- Three pairwise distinct sample flow keys used to exercise eviction. -/
def keyA : sk_key :=
  { src_ip := [1, 0, 0, 0], dst_ip := [2, 0, 0, 0], src_port := 1, dst_port := 1,
    protocol := PROTOCOL_UDP, ipv6 := 0 }

/-- Second sample key, distinct from keyA. -/
def keyB : sk_key :=
  { src_ip := [3, 0, 0, 0], dst_ip := [4, 0, 0, 0], src_port := 2, dst_port := 2,
    protocol := PROTOCOL_UDP, ipv6 := 0 }

/-- Third sample key, distinct from keyA and keyB. -/
def keyC : sk_key :=
  { src_ip := [5, 0, 0, 0], dst_ip := [6, 0, 0, 0], src_port := 3, dst_port := 3,
    protocol := PROTOCOL_UDP, ipv6 := 0 }

/-- A table of two entries, keyA most recently accessed, keyB least. -/
def twoTable : bandwidth.BwTable :=
  [(keyA, { rx := 1, tx := 1, reported := 0 }), (keyB, { rx := 2, tx := 2, reported := 0 })]

/-- A table holding one entry for the sample UDP key. -/
def oneTable : bandwidth.BwTable := [(demoKey, { rx := 1, tx := 2, reported := 0 })]

/-! Helper lemmas about the table operations. -/

namespace bandwidth

theorem bwLookup_cons_self (k : sk_key) (v : sk_info) (t : BwTable) :
    bwLookup k ((k, v) :: t) = some v := by
  simp [bwLookup]

theorem bwLookup_cons_ne (k k' : sk_key) (v : sk_info) (t : BwTable) (h : ¬ k = k') :
    bwLookup k' ((k, v) :: t) = bwLookup k' t := by
  simp [bwLookup, h]

theorem bwLookup_bwRemove_ne (k k' : sk_key) (t : BwTable) (h : ¬ k' = k) :
    bwLookup k' (bwRemove k t) = bwLookup k' t := by
  have hkk : ¬ k = k' := fun hc => h hc.symm
  induction t with
  | nil => rfl
  | cons p rest ih =>
    by_cases hp : p.1 = k
    · simp [bwRemove, hp, bwLookup, hkk, ih]
    · by_cases hp' : p.1 = k' <;> simp [bwRemove, hp, bwLookup, hp', ih, h]

theorem bwRemove_length_le (k : sk_key) (t : BwTable) :
    (bwRemove k t).length ≤ t.length := by
  induction t with
  | nil => simp [bwRemove]
  | cons p rest ih =>
    by_cases hp : p.1 = k <;> simp [bwRemove, hp] <;> omega

theorem bwRemove_length_lt (k : sk_key) (t : BwTable) (h : (bwLookup k t).isSome) :
    (bwRemove k t).length < t.length := by
  induction t with
  | nil => simp [bwLookup] at h
  | cons p rest ih =>
    by_cases hp : p.1 = k
    · have hle := bwRemove_length_le k rest
      simp [bwRemove, hp]
      omega
    · simp [bwLookup, hp] at h
      have hlt := ih h
      simp [bwRemove, hp]
      omega

theorem mem_bwRemove (k : sk_key) (p : sk_key × sk_info) (t : BwTable)
    (h : p ∈ bwRemove k t) : p ∈ t := by
  induction t with
  | nil => simp [bwRemove] at h
  | cons q rest ih =>
    by_cases hq : q.1 = k
    · simp [bwRemove, hq] at h
      exact List.mem_cons_of_mem q (ih h)
    · simp [bwRemove, hq] at h
      rcases h with h | h
      · exact h ▸ List.mem_cons_self q rest
      · exact List.mem_cons_of_mem q (ih h)

theorem bwLookup_dropLast_some (k : sk_key) (t : BwTable) (i : sk_info)
    (h : bwLookup k t.dropLast = some i) : bwLookup k t = some i := by
  induction t with
  | nil => simp [bwLookup] at h
  | cons p rest ih =>
    cases rest with
    | nil => simp [List.dropLast, bwLookup] at h
    | cons q l2 =>
      simp only [List.dropLast] at h
      by_cases hp : p.1 = k
      · rw [bwLookup, if_pos hp] at h ⊢
        exact h
      · rw [bwLookup, if_neg hp] at h ⊢
        exact ih h

theorem bwLookup_bwUpdate_self (cap : Nat) (k : sk_key) (v : sk_info) (t : BwTable) :
    bwLookup k (bwUpdate cap k v t) = some v := by
  unfold bwUpdate
  split_ifs <;> exact bwLookup_cons_self k v _

theorem mem_bwUpdate (cap : Nat) (k : sk_key) (v : sk_info) (t : BwTable)
    (p : sk_key × sk_info) (h : p ∈ bwUpdate cap k v t) : p = (k, v) ∨ p ∈ t := by
  unfold bwUpdate at h
  split_ifs at h with h1 h2
  · rcases List.mem_cons.mp h with h | h
    · exact Or.inl h
    · exact Or.inr (mem_bwRemove k p t h)
  · rcases List.mem_cons.mp h with h | h
    · exact Or.inl h
    · exact Or.inr h
  · rcases List.mem_cons.mp h with h | h
    · exact Or.inl h
    · exact Or.inr (List.dropLast_subset t h)

theorem accumulate_lookup_present (cap : Nat) (k : sk_key) (d : Dir) (len : Nat)
    (t : BwTable) (info : sk_info) (h : bwLookup k t = some info) :
    bwLookup k (accumulate cap k d len t) = some (bumpInfo d len info) := by
  unfold accumulate
  rw [h]
  exact bwLookup_cons_self k _ _

theorem accumulate_lookup_absent (cap : Nat) (k : sk_key) (d : Dir) (len : Nat)
    (t : BwTable) (h : bwLookup k t = none) :
    bwLookup k (accumulate cap k d len t) = some (freshInfo d len) := by
  unfold accumulate
  rw [h]
  exact bwLookup_bwUpdate_self cap k _ t

theorem accumulate_lookup_other (cap : Nat) (k k' : sk_key) (d : Dir) (len : Nat)
    (t : BwTable) (j : sk_info) (hne : ¬ k' = k)
    (ha : bwLookup k' (accumulate cap k d len t) = some j) : bwLookup k' t = some j := by
  have hkk : ¬ k = k' := fun hc => hne hc.symm
  unfold accumulate at ha
  cases hk : bwLookup k t with
  | some info =>
    rw [hk] at ha
    rw [bwLookup_cons_ne k k' _ _ hkk, bwLookup_bwRemove_ne k k' t hne] at ha
    exact ha
  | none =>
    rw [hk] at ha
    unfold bwUpdate at ha
    rw [hk] at ha
    simp only [Option.isSome_none, Bool.false_eq_true, if_false] at ha
    split_ifs at ha with hlen
    · rw [bwLookup_cons_ne k k' _ _ hkk] at ha
      exact ha
    · rw [bwLookup_cons_ne k k' _ _ hkk] at ha
      exact bwLookup_dropLast_some k' t j ha

theorem mem_accumulate (cap : Nat) (k : sk_key) (d : Dir) (len : Nat) (t : BwTable)
    (p : sk_key × sk_info) (h : p ∈ accumulate cap k d len t) :
    (p.1 = k ∧ p.2.reported = 0) ∨ p ∈ t := by
  unfold accumulate at h
  cases hk : bwLookup k t with
  | some info =>
    rw [hk] at h
    rcases List.mem_cons.mp h with h | h
    · left
      rw [h]
      refine ⟨rfl, ?_⟩
      cases d <;> simp [bumpInfo, Nat.and_zero]
    · exact Or.inr (mem_bwRemove k p t h)
  | none =>
    rw [hk] at h
    rcases mem_bwUpdate cap k _ t p h with h | h
    · left
      rw [h]
      refine ⟨rfl, ?_⟩
      cases d <;> simp [freshInfo]
    · exact Or.inr h

theorem socket_operations_early (cap op : Nat) (sk : Option bpf_sock) (r a : Nat)
    (t : BwTable) (hop : op = BPF_SOCK_OPS_TCP_CONNECT_CB ∨ op = BPF_SOCK_OPS_TCP_LISTEN_CB ∨
      op = BPF_SOCK_OPS_PASSIVE_ESTABLISHED_CB) :
    socket_operations cap op sk r a t = t := by
  unfold socket_operations
  rw [if_pos hop]

theorem socket_operations_none (cap op : Nat) (r a : Nat) (t : BwTable) :
    socket_operations cap op none r a t = t := by
  unfold socket_operations
  split_ifs <;> rfl

theorem socket_operations_some (cap op : Nat) (s : bpf_sock) (r a : Nat) (t : BwTable)
    (hop : ¬(op = BPF_SOCK_OPS_TCP_CONNECT_CB ∨ op = BPF_SOCK_OPS_TCP_LISTEN_CB ∨
      op = BPF_SOCK_OPS_PASSIVE_ESTABLISHED_CB)) :
    socket_operations cap op (some s) r a t =
      if s.family = AF_INET then
        bwUpdate cap (sockops_key_v4 s)
          { rx := r % U64, tx := a % U64, reported := 0 } t
      else if s.family = AF_INET6 then
        bwUpdate cap (sockops_key_v6 s)
          { rx := r % U64, tx := a % U64, reported := 0 } t
      else t := by
  unfold socket_operations
  rw [if_neg hop]

theorem mem_socket_operations (cap op : Nat) (sk : Option bpf_sock) (r a : Nat)
    (t : BwTable) (p : sk_key × sk_info) (h : p ∈ socket_operations cap op sk r a t) :
    (p.1.protocol = PROTOCOL_TCP ∧ p.2.reported = 0) ∨ p ∈ t := by
  by_cases h1 : op = BPF_SOCK_OPS_TCP_CONNECT_CB ∨ op = BPF_SOCK_OPS_TCP_LISTEN_CB ∨
      op = BPF_SOCK_OPS_PASSIVE_ESTABLISHED_CB
  · rw [socket_operations_early cap op sk r a t h1] at h
    exact Or.inr h
  · cases sk with
    | none =>
      rw [socket_operations_none cap op r a t] at h
      exact Or.inr h
    | some s =>
      rw [socket_operations_some cap op s r a t h1] at h
      split_ifs at h with h2 h3
      · rcases mem_bwUpdate cap _ _ t p h with h | h
        · left
          rw [h]
          exact ⟨rfl, rfl⟩
        · exact Or.inr h
      · rcases mem_bwUpdate cap _ _ t p h with h | h
        · left
          rw [h]
          exact ⟨rfl, rfl⟩
        · exact Or.inr h
      · exact Or.inr h

theorem mem_applyOp (cap : Nat) (u : BwTable) (op : TableOp) (p : sk_key × sk_info)
    (h : p ∈ applyOp cap u op) :
    ((p.1.protocol = PROTOCOL_UDP ∨ p.1.protocol = PROTOCOL_TCP) ∧ p.2.reported = 0) ∨
      p ∈ u := by
  cases op with
  | udpSend sk len =>
    rcases mem_accumulate cap _ _ _ u p h with ⟨h1, h2⟩ | h
    · exact Or.inl ⟨Or.inl (by rw [h1]; rfl), h2⟩
    · exact Or.inr h
  | udpRecv sk len =>
    rcases mem_accumulate cap _ _ _ u p h with ⟨h1, h2⟩ | h
    · exact Or.inl ⟨Or.inl (by rw [h1]; rfl), h2⟩
    · exact Or.inr h
  | udp6Send sk len =>
    rcases mem_accumulate cap _ _ _ u p h with ⟨h1, h2⟩ | h
    · exact Or.inl ⟨Or.inl (by rw [h1]; rfl), h2⟩
    · exact Or.inr h
  | udp6Recv sk len =>
    rcases mem_accumulate cap _ _ _ u p h with ⟨h1, h2⟩ | h
    · exact Or.inl ⟨Or.inl (by rw [h1]; rfl), h2⟩
    · exact Or.inr h
  | tcpSockops op sk r a =>
    rcases mem_socket_operations cap op sk r a u p h with ⟨h1, h2⟩ | h
    · exact Or.inl ⟨Or.inr h1, h2⟩
    · exact Or.inr h

theorem runOps_key_protocol (cap : Nat) (ops : List TableOp) :
    ∀ u : BwTable, (∀ p ∈ u, p.1.protocol = PROTOCOL_UDP ∨ p.1.protocol = PROTOCOL_TCP) →
      ∀ p ∈ runOps cap ops u, p.1.protocol = PROTOCOL_UDP ∨ p.1.protocol = PROTOCOL_TCP := by
  induction ops with
  | nil =>
    intro u hu
    simpa [runOps] using hu
  | cons op rest ih =>
    intro u hu p hp
    rw [runOps, List.foldl_cons] at hp
    refine ih (applyOp cap u op) ?_ p hp
    intro q hq
    rcases mem_applyOp cap u op q hq with ⟨hq1, _⟩ | hq2
    · exact hq1
    · exact hu q hq2

theorem bwUpdate_length (cap : Nat) (k : sk_key) (v : sk_info) (t : BwTable)
    (hcap : 0 < cap) (hl : t.length ≤ cap) : (bwUpdate cap k v t).length ≤ cap := by
  unfold bwUpdate
  split_ifs with h1 h2
  · have := bwRemove_length_lt k t h1
    simp only [List.length_cons]
    omega
  · simp only [List.length_cons]
    omega
  · have := List.length_dropLast t
    simp only [List.length_cons]
    omega

theorem accumulate_length (cap : Nat) (k : sk_key) (d : Dir) (len : Nat) (t : BwTable)
    (hcap : 0 < cap) (hl : t.length ≤ cap) : (accumulate cap k d len t).length ≤ cap := by
  unfold accumulate
  cases hk : bwLookup k t with
  | some info =>
    have h1 : (bwLookup k t).isSome := by rw [hk]; rfl
    have := bwRemove_length_lt k t h1
    simp only [List.length_cons]
    omega
  | none => exact bwUpdate_length cap k _ t hcap hl

theorem socket_operations_length (cap op : Nat) (sk : Option bpf_sock) (r a : Nat)
    (t : BwTable) (hcap : 0 < cap) (hl : t.length ≤ cap) :
    (socket_operations cap op sk r a t).length ≤ cap := by
  by_cases h1 : op = BPF_SOCK_OPS_TCP_CONNECT_CB ∨ op = BPF_SOCK_OPS_TCP_LISTEN_CB ∨
      op = BPF_SOCK_OPS_PASSIVE_ESTABLISHED_CB
  · rw [socket_operations_early cap op sk r a t h1]
    exact hl
  · cases sk with
    | none =>
      rw [socket_operations_none cap op r a t]
      exact hl
    | some s =>
      rw [socket_operations_some cap op s r a t h1]
      split_ifs with h2 h3
      · exact bwUpdate_length cap _ _ t hcap hl
      · exact bwUpdate_length cap _ _ t hcap hl
      · exact hl

theorem applyOp_length (cap : Nat) (t : BwTable) (op : TableOp)
    (hcap : 0 < cap) (hl : t.length ≤ cap) : (applyOp cap t op).length ≤ cap := by
  cases op with
  | udpSend sk len => exact accumulate_length cap _ _ _ t hcap hl
  | udpRecv sk len => exact accumulate_length cap _ _ _ t hcap hl
  | udp6Send sk len => exact accumulate_length cap _ _ _ t hcap hl
  | udp6Recv sk len => exact accumulate_length cap _ _ _ t hcap hl
  | tcpSockops op sk r a => exact socket_operations_length cap op sk r a t hcap hl

theorem runOps_length (cap : Nat) (ops : List TableOp) (hcap : 0 < cap) :
    ∀ t : BwTable, t.length ≤ cap → (runOps cap ops t).length ≤ cap := by
  induction ops with
  | nil =>
    intro t hl
    simpa [runOps] using hl
  | cons op rest ih =>
    intro t hl
    rw [runOps, List.foldl_cons]
    exact ih (applyOp cap t op) (applyOp_length cap t op hcap hl)

theorem runAccum_lookup (cap : Nat) (k : sk_key) (calls : List (Dir × Nat)) :
    ∀ (t : BwTable) (i : sk_info), bwLookup k t = some i → i.rx < U64 → i.tx < U64 →
      ∃ j, bwLookup k (runAccum cap k calls t) = some j ∧
        j.rx = (i.rx + sumRx calls) % U64 ∧ j.tx = (i.tx + sumTx calls) % U64 := by
  induction calls with
  | nil =>
    intro t i h hrx htx
    refine ⟨i, h, ?_, ?_⟩
    · simp [sumRx, Nat.mod_eq_of_lt hrx]
    · simp [sumTx, Nat.mod_eq_of_lt htx]
  | cons c rest ih =>
    intro t i h hrx htx
    obtain ⟨d, len⟩ := c
    have hstep := accumulate_lookup_present cap k d len t i h
    have hU : 0 < U64 := by decide
    have hbrx : (bumpInfo d len i).rx < U64 := by
      cases d <;> simp [bumpInfo] <;> first | exact Nat.mod_lt _ hU | exact hrx
    have hbtx : (bumpInfo d len i).tx < U64 := by
      cases d <;> simp [bumpInfo] <;> first | exact Nat.mod_lt _ hU | exact htx
    have hrun : runAccum cap k ((d, len) :: rest) t =
        runAccum cap k rest (accumulate cap k d len t) := by
      simp [runAccum]
    obtain ⟨j, hj, hjrx, hjtx⟩ := ih (accumulate cap k d len t) (bumpInfo d len i) hstep hbrx hbtx
    refine ⟨j, by rw [hrun]; exact hj, ?_, ?_⟩
    · cases d
      · rw [hjrx]
        simp only [bumpInfo, sumRx]
        rw [Nat.mod_add_mod, Nat.add_assoc]
      · rw [hjrx]
        simp only [bumpInfo, sumRx]
    · cases d
      · rw [hjtx]
        simp only [bumpInfo, sumTx]
      · rw [hjtx]
        simp only [bumpInfo, sumTx]
        rw [Nat.mod_add_mod, Nat.add_assoc]

/-! Claim theorems. -/

/-- C1: for every key and every interleaving of accumulate calls on that key,
starting from any table without an entry for the key, the final rx counter of
the entry equals the exact sum of the rx deltas and the final tx counter the
exact sum of the tx deltas, given that each sum fits the 64-bit counters; and
the first accumulate on the absent key creates the entry with the delta in
the given direction and the other counter 0. -/
theorem accumulate_sums_all_deltas (cap : Nat) (k : sk_key) (d0 : Dir) (len0 : Nat)
    (rest : List (Dir × Nat)) (t : BwTable)
    (habs : bwLookup k t = none)
    (hrx : sumRx ((d0, len0) :: rest) < U64) (htx : sumTx ((d0, len0) :: rest) < U64) :
    (∃ j, bwLookup k (runAccum cap k ((d0, len0) :: rest) t) = some j ∧
        j.rx = sumRx ((d0, len0) :: rest) ∧ j.tx = sumTx ((d0, len0) :: rest)) ∧
    bwLookup k (accumulate cap k d0 len0 t) =
      some (match d0 with
        | Dir.rx => { rx := len0, tx := 0, reported := 0 }
        | Dir.tx => { rx := 0, tx := len0, reported := 0 }) := by
  have hU : 0 < U64 := by decide
  have hcreate := accumulate_lookup_absent cap k d0 len0 t habs
  have hrun : runAccum cap k ((d0, len0) :: rest) t =
      runAccum cap k rest (accumulate cap k d0 len0 t) := by
    simp [runAccum]
  cases d0 with
  | rx =>
    simp only [sumRx, sumTx] at hrx htx ⊢
    have hlen0 : len0 % U64 = len0 :=
      Nat.mod_eq_of_lt (lt_of_le_of_lt (Nat.le_add_right _ _) hrx)
    have hfr : freshInfo Dir.rx len0 = { rx := len0, tx := 0, reported := 0 } := by
      simp [freshInfo, hlen0]
    refine ⟨?_, by rw [hcreate, hfr]⟩
    obtain ⟨j, hj, hjrx, hjtx⟩ := runAccum_lookup cap k rest (accumulate cap k Dir.rx len0 t)
      (freshInfo Dir.rx len0) hcreate
      (by rw [hfr]; exact lt_of_le_of_lt (Nat.le_add_right _ _) hrx)
      (by rw [hfr]; exact hU)
    refine ⟨j, by rw [hrun]; exact hj, ?_, ?_⟩
    · rw [hjrx, hfr]
      exact Nat.mod_eq_of_lt hrx
    · rw [hjtx, hfr]
      simp only [Nat.zero_add]
      exact Nat.mod_eq_of_lt htx
  | tx =>
    simp only [sumRx, sumTx] at hrx htx ⊢
    have hlen0 : len0 % U64 = len0 :=
      Nat.mod_eq_of_lt (lt_of_le_of_lt (Nat.le_add_right _ _) htx)
    have hfr : freshInfo Dir.tx len0 = { rx := 0, tx := len0, reported := 0 } := by
      simp [freshInfo, hlen0]
    refine ⟨?_, by rw [hcreate, hfr]⟩
    obtain ⟨j, hj, hjrx, hjtx⟩ := runAccum_lookup cap k rest (accumulate cap k Dir.tx len0 t)
      (freshInfo Dir.tx len0) hcreate
      (by rw [hfr]; exact hU)
      (by rw [hfr]; exact lt_of_le_of_lt (Nat.le_add_right _ _) htx)
    refine ⟨j, by rw [hrun]; exact hj, ?_, ?_⟩
    · rw [hjrx, hfr]
      simp only [Nat.zero_add]
      exact Nat.mod_eq_of_lt hrx
    · rw [hjtx, hfr]
      exact Nat.mod_eq_of_lt htx

/-- Witness: two interleaved accumulate calls on one key in an empty table
yield exactly rx 200 and tx 1000. -/
theorem accumulate_sums_all_deltas_witness :
    (∃ j, bwLookup demoKey (runAccum 5000 demoKey ((Dir.tx, 1000) :: [(Dir.rx, 200)]) []) =
        some j ∧
        j.rx = sumRx ((Dir.tx, 1000) :: [(Dir.rx, 200)]) ∧
        j.tx = sumTx ((Dir.tx, 1000) :: [(Dir.rx, 200)])) ∧
    bwLookup demoKey (accumulate 5000 demoKey Dir.tx 1000 []) =
      some { rx := 0, tx := 1000, reported := 0 } :=
  accumulate_sums_all_deltas 5000 demoKey Dir.tx 1000 [(Dir.rx, 200)] [] rfl
    (by decide) (by decide)

/-- C2: every accumulate call leaves the entry for its key in the changed
state of the reported flag, which the code encodes as the reported field
holding 0; this covers the creation case. Moreover no bandwidth.c table
operation ever produces an entry whose reported field is nonzero, so the flag
can be reset only by the consumer's read-and-clear, which lives outside these
programs. -/
theorem accumulate_marks_changed (cap : Nat) (k : sk_key) (d : Dir) (len : Nat)
    (t : BwTable) :
    (∃ info, bwLookup k (accumulate cap k d len t) = some info ∧ info.reported = 0) ∧
    (∀ (op : TableOp) (u : BwTable) (p : sk_key × sk_info),
        p ∈ applyOp cap u op → p ∈ u ∨ p.2.reported = 0) := by
  constructor
  · cases hk : bwLookup k t with
    | some info =>
      refine ⟨bumpInfo d len info, accumulate_lookup_present cap k d len t info hk, ?_⟩
      cases d <;> simp [bumpInfo, Nat.and_zero]
    | none =>
      refine ⟨freshInfo d len, accumulate_lookup_absent cap k d len t hk, ?_⟩
      cases d <;> simp [freshInfo]
  · intro op u p hp
    rcases mem_applyOp cap u op p hp with ⟨_, h2⟩ | h
    · exact Or.inr h2
    · exact Or.inl h

/-- Witness: one accumulate call on an empty table creates an entry whose
reported field is 0, the changed state. -/
theorem accumulate_marks_changed_witness :
    (∃ info, bwLookup demoKey (accumulate 5000 demoKey Dir.tx 5 []) = some info ∧
        info.reported = 0) ∧
    ((demoKey, ({ rx := 0, tx := 5 % U64, reported := 0 } : sk_info)) ∈ ([] : BwTable) ∨
      ({ rx := 0, tx := 5 % U64, reported := 0 } : sk_info).reported = 0) := by
  refine ⟨(accumulate_marks_changed 5000 demoKey Dir.tx 5 []).1, ?_⟩
  exact (accumulate_marks_changed 5000 demoKey Dir.tx 5 []).2 (TableOp.udpSend demoSockV4 5)
    [] (demoKey, { rx := 0, tx := 5 % U64, reported := 0 }) (by decide)

/-- C3 counterexample: after the sockops program records cumulative totals 5/5
for a TCP key, a second sockops invocation for the same key carrying totals
3/3 (as a fresh socket reusing the 4-tuple would) leaves the entry present
with rx and tx equal to 3: the counters of an existing entry decreased with
no eviction. -/
theorem sockops_decreases_counter :
    bwLookup (sockops_key_v4 tcpDemoBpf)
        (runOps 5000 [TableOp.tcpSockops 4 (some tcpDemoBpf) 5 5] []) =
      some { rx := 5, tx := 5, reported := 0 } ∧
    bwLookup (sockops_key_v4 tcpDemoBpf)
        (runOps 5000 [TableOp.tcpSockops 4 (some tcpDemoBpf) 5 5,
          TableOp.tcpSockops 4 (some tcpDemoBpf) 3 3] []) =
      some { rx := 3, tx := 3, reported := 0 } ∧
    (3 : Nat) < 5 :=
  ⟨by decide, by decide, by decide⟩

/-- C3 amended: the UDP accumulate paths never decrease any existing entry's
counters (absent 64-bit wrap-around); the TCP sockops path instead overwrites
the entry for the socket's key with the supplied cumulative totals, whatever
their relation to the stored values, so only the per-socket monotonicity of
those totals, not the table operation, keeps TCP counters from decreasing. -/
theorem accumulate_monotone_sockops_overwrites (cap : Nat) (k kq : sk_key) (d : Dir)
    (len : Nat) (t : BwTable) (i j : sk_info) (op : Nat) (s : bpf_sock) (r a : Nat)
    (hb : bwLookup kq t = some i) (ha : bwLookup kq (accumulate cap k d len t) = some j)
    (hrx : i.rx + len < U64) (htx : i.tx + len < U64)
    (hop : ¬(op = BPF_SOCK_OPS_TCP_CONNECT_CB ∨ op = BPF_SOCK_OPS_TCP_LISTEN_CB ∨
      op = BPF_SOCK_OPS_PASSIVE_ESTABLISHED_CB))
    (hfam : s.family = AF_INET) :
    (i.rx ≤ j.rx ∧ i.tx ≤ j.tx) ∧
    bwLookup (sockops_key_v4 s) (socket_operations cap op (some s) r a t) =
      some { rx := r % U64, tx := a % U64, reported := 0 } := by
  constructor
  · by_cases hkk : kq = k
    · subst hkk
      rw [accumulate_lookup_present cap kq d len t i hb] at ha
      injection ha with ha
      subst ha
      cases d
      · constructor
        · simp only [bumpInfo]
          rw [Nat.mod_eq_of_lt hrx]
          omega
        · simp [bumpInfo]
      · constructor
        · simp [bumpInfo]
        · simp only [bumpInfo]
          rw [Nat.mod_eq_of_lt htx]
          omega
    · have h2 := accumulate_lookup_other cap k kq d len t j hkk ha
      have h3 : some i = some j := hb ▸ h2
      injection h3 with h3
      rw [h3]
      exact ⟨le_refl _, le_refl _⟩
  · rw [socket_operations_some cap op s r a t hop, if_pos hfam]
    exact bwLookup_bwUpdate_self cap _ _ t

/-- Witness: an accumulate of 5 tx bytes onto an entry holding rx 1 and tx 2
does not decrease either counter, while a sockops invocation stores exactly
the supplied totals 9/9. -/
theorem accumulate_monotone_sockops_overwrites_witness :
    (({ rx := 1, tx := 2, reported := 0 } : sk_info).rx ≤
        ({ rx := 1, tx := 7, reported := 0 } : sk_info).rx ∧
      ({ rx := 1, tx := 2, reported := 0 } : sk_info).tx ≤
        ({ rx := 1, tx := 7, reported := 0 } : sk_info).tx) ∧
    bwLookup (sockops_key_v4 tcpDemoBpf)
        (socket_operations 5000 4 (some tcpDemoBpf) 9 9 oneTable) =
      some { rx := 9 % U64, tx := 9 % U64, reported := 0 } :=
  accumulate_monotone_sockops_overwrites 5000 demoKey demoKey Dir.tx 5 oneTable
    { rx := 1, tx := 2, reported := 0 } { rx := 1, tx := 7, reported := 0 } 4 tcpDemoBpf 9 9
    (by decide) (by decide) (by decide) (by decide) (by decide) (by decide)

/-- C4: starting empty, the bandwidth table never holds more entries than the
configured capacity SOCKOPS_MAP_SIZE (5000) under any sequence of hook
invocations; and storing a new distinct key into a full table of any positive
capacity succeeds by evicting exactly the least-recently-accessed entry, the
inserted key being present afterwards. -/
theorem lru_capacity_and_eviction (ops : List TableOp) (cap : Nat) (k : sk_key)
    (v : sk_info) (t : BwTable) (hcap : 0 < cap) (hfull : t.length = cap)
    (habs : bwLookup k t = none) :
    (runOps SOCKOPS_MAP_SIZE ops []).length ≤ SOCKOPS_MAP_SIZE ∧
    bwUpdate cap k v t = (k, v) :: t.dropLast ∧
    (bwUpdate cap k v t).length = cap ∧
    bwLookup k (bwUpdate cap k v t) = some v := by
  have h2 : bwUpdate cap k v t = (k, v) :: t.dropLast := by
    unfold bwUpdate
    rw [habs]
    simp only [Option.isSome_none, Bool.false_eq_true, if_false]
    rw [if_neg (by omega)]
  refine ⟨runOps_length SOCKOPS_MAP_SIZE ops (by decide) [] (by simp), h2, ?_,
    bwLookup_bwUpdate_self cap k v t⟩
  rw [h2]
  have := List.length_dropLast t
  simp only [List.length_cons]
  omega

/-- Witness: inserting a third distinct key into a full capacity-2 table
evicts exactly the least-recently-accessed entry keyB and keeps the size 2. -/
theorem lru_capacity_and_eviction_witness :
    (runOps SOCKOPS_MAP_SIZE [TableOp.udpSend demoSockV4 5] []).length ≤ SOCKOPS_MAP_SIZE ∧
    bwUpdate 2 keyC { rx := 7, tx := 8, reported := 0 } twoTable =
      (keyC, { rx := 7, tx := 8, reported := 0 }) :: twoTable.dropLast ∧
    (bwUpdate 2 keyC { rx := 7, tx := 8, reported := 0 } twoTable).length = 2 ∧
    bwLookup keyC (bwUpdate 2 keyC { rx := 7, tx := 8, reported := 0 } twoTable) =
      some { rx := 7, tx := 8, reported := 0 } :=
  lru_capacity_and_eviction [TableOp.udpSend demoSockV4 5] 2 keyC
    { rx := 7, tx := 8, reported := 0 } twoTable (by decide) (by decide) (by decide)

/-- C5: in both IPv6 datagram accounting hooks the built key carries the
socket's receive/source address in the source AND in the destination lanes,
so the destination lanes never hold the flow's actual destination address
whenever that address differs from the source address. -/
theorem udpv6_key_copies_saddr_into_dst (sk : sock) :
    ((udpv6_sendmsg_key sk).src_ip = sk.skc_v6_rcv_saddr.lanes ∧
     (udpv6_sendmsg_key sk).dst_ip = sk.skc_v6_rcv_saddr.lanes ∧
     (udpv6_recvmsg_key sk).src_ip = sk.skc_v6_rcv_saddr.lanes ∧
     (udpv6_recvmsg_key sk).dst_ip = sk.skc_v6_rcv_saddr.lanes) ∧
    (sk.skc_v6_daddr.lanes ≠ sk.skc_v6_rcv_saddr.lanes →
      (udpv6_sendmsg_key sk).dst_ip ≠ sk.skc_v6_daddr.lanes ∧
      (udpv6_recvmsg_key sk).dst_ip ≠ sk.skc_v6_daddr.lanes) :=
  ⟨⟨rfl, rfl, rfl, rfl⟩, fun h => ⟨fun hc => h hc.symm, fun hc => h hc.symm⟩⟩

/-- Witness: for a socket whose destination differs from its source address,
the keys built by the IPv6 hooks do not carry the destination address. -/
theorem udpv6_key_copies_saddr_into_dst_witness :
    (udpv6_sendmsg_key demoSockV6).dst_ip ≠ demoSockV6.skc_v6_daddr.lanes ∧
    (udpv6_recvmsg_key demoSockV6).dst_ip ≠ demoSockV6.skc_v6_daddr.lanes :=
  (udpv6_key_copies_saddr_into_dst demoSockV6).2 (by decide)

/-- C9: the sockops normalization for an IPv4 TCP flow places each IPv4
address in the first 32-bit lane with the remaining three lanes zero, keeps
the src_port value and byte-swaps dst_port from its network-byte-order source
representation into the same single canonical representation as src_port; on
the flow 192.0.2.10 port 51413 to 203.0.113.5 port 443 it yields exactly the
claimed key, with protocol TCP and ipVersion 4. -/
theorem sockops_v4_normalization (s : bpf_sock) (v6s v6d : in6_addr) :
    (sockops_key_v4 s).src_ip = [s.src_ip4, 0, 0, 0] ∧
    (sockops_key_v4 s).dst_ip = [s.dst_ip4, 0, 0, 0] ∧
    (sockops_key_v4 s).src_port = s.src_port ∧
    (sockops_key_v4 s).dst_port = bswap16 s.dst_port ∧
    sockops_key_v4
        { family := AF_INET, src_ip4 := addr_v4 192 0 2 10, dst_ip4 := addr_v4 203 0 113 5,
          src_ip6 := v6s, dst_ip6 := v6d, src_port := 51413, dst_port := bswap16 443 } =
      { src_ip := [addr_v4 192 0 2 10, 0, 0, 0], dst_ip := [addr_v4 203 0 113 5, 0, 0, 0],
        src_port := 51413, dst_port := 443, protocol := PROTOCOL_TCP, ipv6 := 0 } :=
  ⟨rfl, rfl, rfl, rfl, by dsimp only [sockops_key_v4]; decide⟩

/-- C10: every key the datagram accounting hooks build carries protocol UDP
(17); no table reachable from empty by the bandwidth.c hook invocations ever
contains a key with protocol UDPLite (136); and even a socket whose
connection event the earlier monitor schema emits with protocol 136 gets its
bytes accounted under a key with protocol 17. -/
theorem datagram_keys_always_udp (cap : Nat) (ops : List TableOp) (sk : sock) (pt : Nat)
    (rOld : EventOld) :
    ((udp_sendmsg_key sk).protocol = PROTOCOL_UDP ∧
     (udp_recvmsg_key sk).protocol = PROTOCOL_UDP ∧
     (udpv6_sendmsg_key sk).protocol = PROTOCOL_UDP ∧
     (udpv6_recvmsg_key sk).protocol = PROTOCOL_UDP) ∧
    (∀ p ∈ runOps cap ops [], p.1.protocol ≠ UDPLite) ∧
    (sk.skc_family = AF_INET6 → sk.udp6_cast_ok = true → sk.pcflag ≠ 0 →
      ∃ ev, (monitor_old.udpv6_sendmsg sk pt (some rOld)).2 = some ev ∧
        ev.protocol = UDPLite ∧ (udpv6_sendmsg_key sk).protocol = PROTOCOL_UDP) := by
  refine ⟨⟨rfl, rfl, rfl, rfl⟩, ?_, ?_⟩
  · intro p hp
    rcases runOps_key_protocol cap ops [] (by simp) p hp with h | h <;> rw [h] <;> decide
  · intro hfam hcast hpc
    unfold monitor_old.udpv6_sendmsg
    rw [if_neg (by simp [hfam]), if_neg (by simp [hcast])]
    refine ⟨_, rfl, ?_, rfl⟩
    simp [hpc]

/-- Witness: for the sample UDP-Lite IPv6 socket, a key placed in the table by
its send hook does not carry protocol 136, while its connection event of the
earlier schema does. -/
theorem datagram_keys_always_udp_witness :
    (udpv6_sendmsg_key demoSockV6,
        ({ rx := 0, tx := 5 % U64, reported := 0 } : sk_info)).1.protocol ≠ UDPLite ∧
    (∃ ev, (monitor_old.udpv6_sendmsg demoSockV6 7 (some blankOld)).2 = some ev ∧
        ev.protocol = UDPLite ∧ (udpv6_sendmsg_key demoSockV6).protocol = PROTOCOL_UDP) := by
  constructor
  · exact (datagram_keys_always_udp 5000 [TableOp.udp6Send demoSockV6 5] demoSockV6 7
      blankOld).2.1
      (udpv6_sendmsg_key demoSockV6, { rx := 0, tx := 5 % U64, reported := 0 }) (by decide)
  · exact (datagram_keys_always_udp 5000 [] demoSockV6 7 blankOld).2.2 (by decide)
      (by decide) (by decide)

end bandwidth

/-- C6: at every datagram connection-event site that reads a UDP-Lite
indicator, the emitted protocol is the distinct value 136 exactly when the
indicator marks the socket as UDP-Lite and plain 17 otherwise; the IPv4 send
site of the earlier schema, which has no indicator to read, always records
plain UDP. -/
theorem datagram_event_protocol (sk : sock) (pt : Nat) (r : Event) (rOld : EventOld) :
    (∀ ev, (monitor.udp_v4_connect sk pt (some r)).2 = some ev →
        (sk.sk_protocol = IPPROTO_UDPLITE → ev.protocol = UDPLite) ∧
        (sk.sk_protocol ≠ IPPROTO_UDPLITE → ev.protocol = PROTOCOL_UDP)) ∧
    (∀ ev, (monitor.udp_v6_connect sk pt (some r)).2 = some ev →
        (sk.sk_protocol = IPPROTO_UDPLITE → ev.protocol = UDPLite) ∧
        (sk.sk_protocol ≠ IPPROTO_UDPLITE → ev.protocol = PROTOCOL_UDP)) ∧
    (∀ ev, (monitor_old.udpv6_sendmsg sk pt (some rOld)).2 = some ev →
        (sk.pcflag ≠ 0 → ev.protocol = UDPLite) ∧
        (sk.pcflag = 0 → ev.protocol = PROTOCOL_UDP)) ∧
    (∀ ev, (monitor_old.udp_sendmsg sk pt (some rOld)).2 = some ev →
        ev.protocol = PROTOCOL_UDP) := by
  refine ⟨?_, ?_, ?_, ?_⟩
  · intro ev hev
    unfold monitor.udp_v4_connect at hev
    split_ifs at hev with h1 h2 hpro
    · simp only [Option.some.injEq] at hev
      subst hev
      exact ⟨fun _ => rfl, fun hc => absurd hpro hc⟩
    · simp only [Option.some.injEq] at hev
      subst hev
      exact ⟨fun hc => absurd hc hpro, fun _ => rfl⟩
  · intro ev hev
    unfold monitor.udp_v6_connect at hev
    split_ifs at hev with h1 h2 h3 hpro
    · simp only [Option.some.injEq] at hev
      subst hev
      exact ⟨fun _ => rfl, fun hc => absurd hpro hc⟩
    · simp only [Option.some.injEq] at hev
      subst hev
      exact ⟨fun hc => absurd hc hpro, fun _ => rfl⟩
  · intro ev hev
    unfold monitor_old.udpv6_sendmsg at hev
    split_ifs at hev with h1 h2 hpc
    · simp only [Option.some.injEq] at hev
      subst hev
      exact ⟨fun hc => absurd hpc hc, fun _ => rfl⟩
    · simp only [Option.some.injEq] at hev
      subst hev
      exact ⟨fun _ => rfl, fun hc => absurd hc hpc⟩
  · intro ev hev
    unfold monitor_old.udp_sendmsg at hev
    split_ifs at hev with h1
    simp only [Option.some.injEq] at hev
    subst hev
    rfl

/-- Witness: the sample IPv4 UDP-Lite socket gets its connect event emitted
with protocol 136. -/
theorem datagram_event_protocol_witness :
    liteSock.sk_protocol = IPPROTO_UDPLITE ∧ liteEventV4.protocol = UDPLite := by
  refine ⟨by decide, ?_⟩
  exact ((datagram_event_protocol liteSock 7 blankEvent blankOld).1 liteEventV4
    (by decide)).1 (by decide)

/-- C7 evaluated at the failing input: the udp_v4_connect and udp_v6_connect
outbound-connect sites never assign the direction field of the event record,
so the submitted event carries whatever the reserved ring-buffer slot already
held there, here the value 1 (INBOUND); the tcp_connect site by contrast
stamps OUTBOUND. The direction of a datagram connect event is residual
memory, not a value determined by the call site as the claim states. -/
theorem udp_connect_direction_residual :
    (monitor.udp_v4_connect liteSock 7 (some residualInbound)).2.map Event.direction =
      some INBOUND ∧
    (monitor.udp_v6_connect demoSockV6 7 (some residualInbound)).2.map Event.direction =
      some INBOUND ∧
    (monitor.tcp_connect liteSock 7 (some residualInbound)).2.map Event.direction =
      some OUTBOUND ∧
    INBOUND ≠ OUTBOUND :=
  ⟨by decide, by decide, by decide, by decide⟩

/-- C8: when the ring-buffer reservation fails (the channel is full), the
connect hooks of both monitor.c variants return success 0 immediately with no
event submitted, the channel is left unchanged so no partial record becomes
visible, and the hooks return 0 to their caller on every input. -/
theorem submit_fail_open (sk : sock) (pt : Nat) (ch : List Event) (chOld : List EventOld) :
    monitor.tcp_connect sk pt none = (0, none) ∧
    monitor_old.tcp_v4_connect sk pt none = (0, none) ∧
    commitEvent ch (monitor.tcp_connect sk pt none).2 = ch ∧
    commitEventOld chOld (monitor_old.tcp_v4_connect sk pt none).2 = chOld ∧
    (∀ reserved : Option Event, (monitor.tcp_connect sk pt reserved).1 = 0) ∧
    (∀ reserved : Option EventOld, (monitor_old.tcp_v4_connect sk pt reserved).1 = 0) := by
  have h1 : monitor.tcp_connect sk pt none = (0, none) := rfl
  have h2 : monitor_old.tcp_v4_connect sk pt none = (0, none) := by
    unfold monitor_old.tcp_v4_connect
    split_ifs <;> rfl
  refine ⟨h1, h2, by rw [h1]; rfl, by rw [h2]; rfl, ?_, ?_⟩
  · intro reserved
    cases reserved <;> rfl
  · intro reserved
    unfold monitor_old.tcp_v4_connect
    split_ifs <;> cases reserved <;> rfl

end Portmaster
